import Mathlib

/-!
Verification of the gw2api-rs request pipeline against its specification.

The definitions below are shallow embeddings of the Rust sources:

- src/src/rate_limit.rs : the RateLimiter admission gate;
- src/src/lib.rs        : Client, RequestBuilder, the ResponseFuture polling
                          state machine and the ClientExecutor send path;
- src/src/blocking.rs   : the blocking Client wrapper;
- src/src/v2/guild.rs   : the Guild search endpoint uri.

Machine integers are modelled as Nat; a Rust panic (unwrap of None, or an
unsigned integer underflow) is modelled by returning Option.none. Instants
of tokio time are modelled as Nat seconds; the 60 second window of the rate
limiter is the literal 60.
-/

namespace Gw2

/-! ## Rate limiter, from src/src/rate_limit.rs -/

/-- The state enum of the rate limiter: either inside an open window
(`ready`, holding the window end instant and the `rem` counter), or
`limited`, waiting on the deadline timer. -/
inductive RLState where
  | limited
  | ready (untilT : Nat) (rem : Nat)
  deriving DecidableEq, Repr

/-- Embeds `struct RateLimiter`: the changeable limit, the window state and
the deadline of the reusable sleep timer. -/
structure RateLimiter where
  limit : Nat
  state : RLState
  sleepUntil : Nat
  deriving DecidableEq, Repr

/-- Embeds `RateLimiter::new`: a fresh limiter whose window end is the
creation instant, so the first poll always starts a fresh window. -/
def RateLimiter.new (limit : Nat) (now : Nat) : RateLimiter :=
  { limit := limit, state := RLState.ready now limit, sleepUntil := now }

/-- Embeds `RateLimiter::change`: stores a new limit; it is only read at the
next window reset. -/
def RateLimiter.change (rl : RateLimiter) (limit : Nat) : RateLimiter :=
  { rl with limit := limit }

/-- Embeds `RateLimiter::poll_ready` at instant `now`. The returned Bool is
true for `Poll::Ready(())` (admission) and false for `Poll::Pending`
(suspension). `Option.none` models a Rust panic: in the `Limited` arm the
code computes `self.limit.load(..) - 1` on a usize, which underflows when
the configured limit is 0. Note the `Ready` arm faithfully reproduces
`rem += 1` from the source (line 50 of rate_limit.rs). -/
def RateLimiter.pollReady (rl : RateLimiter) (now : Nat) :
    Option (RateLimiter × Bool) :=
  match rl.state with
  | RLState.ready u rem =>
      let u2 := if u ≤ now then now + 60 else u
      let r2 := if u ≤ now then rl.limit else rem
      if 1 < r2 then
        some ({ rl with state := RLState.ready u2 (r2 + 1) }, true)
      else
        some ({ rl with state := RLState.limited, sleepUntil := u2 }, false)
  | RLState.limited =>
      if now < rl.sleepUntil then
        some (rl, false)
      else
        if rl.limit = 0 then
          none
        else
          some ({ rl with
                  state := RLState.ready (now + 60) (rl.limit - 1) }, true)

/-- Runs `poll_ready` at each instant of the list in order, collecting the
admission outcomes; propagates a panic. -/
def RateLimiter.pollSeq (rl : RateLimiter) :
    List Nat → Option (RateLimiter × List Bool)
  | [] => some (rl, [])
  | now :: rest =>
      match rl.pollReady now with
      | none => none
      | some (rl2, b) =>
          match rl2.pollSeq rest with
          | none => none
          | some (rl3, bs) => some (rl3, b :: bs)

/-- C1. The spec says the remaining counter is decremented within a window
and that with limit 3 the third and fourth consecutive attempts suspend.
The code instead executes `rem += 1` on every admission, so the counter
grows and admission never runs out: from a fresh limiter with limit 3, four
consecutive calls inside the first window (instants 0, 1, 2, 3) are all
admitted and the counter climbs to 7. This evaluates the embedded code at
that failing input, exhibiting the divergence. -/
theorem rateLimiter_c1_run :
    RateLimiter.pollSeq (RateLimiter.new 3 0) [0, 1, 2, 3] =
      some ({ limit := 3, state := RLState.ready 60 7, sleepUntil := 0 },
            [true, true, true, true]) := by
  decide

/-- C9. In the `Limited` arm with the deadline elapsed, the code computes
`limit - 1` on a usize: when the configured limit is 0 this underflows and
the call panics; and whenever the limit is at least 1, `poll_ready` is
total (returns without panicking) from every state. -/
theorem rateLimiter_c9_underflow :
    (∀ (rl : RateLimiter) (now : Nat),
        rl.state = RLState.limited → rl.sleepUntil ≤ now → rl.limit = 0 →
        rl.pollReady now = none) ∧
    (∀ (rl : RateLimiter) (now : Nat),
        1 ≤ rl.limit → (rl.pollReady now).isSome = true) := by
  constructor
  · intro rl now hstate helapsed hlimit
    simp [RateLimiter.pollReady, hstate, hlimit, Nat.not_lt.mpr helapsed]
  · intro rl now hlimit
    match hst : rl.state with
    | RLState.ready u rem =>
        simp only [RateLimiter.pollReady, hst]
        by_cases h1 : 1 < (if u ≤ now then rl.limit else rem) <;>
          simp [h1]
    | RLState.limited =>
        have hne : rl.limit ≠ 0 := Nat.pos_iff_ne_zero.mp hlimit
        simp only [RateLimiter.pollReady, hst]
        by_cases hlt : now < rl.sleepUntil <;> simp [hlt, hne]

/-- Witness for C9: the limiter with limit 0 stuck in `Limited` with an
elapsed deadline panics at instant 5, and a limiter with limit 1 returns. -/
theorem rateLimiter_c9_underflow_w :
    RateLimiter.pollReady
        { limit := 0, state := RLState.limited, sleepUntil := 2 } 5 = none ∧
    (RateLimiter.pollReady (RateLimiter.new 1 0) 0).isSome = true := by
  refine ⟨rateLimiter_c9_underflow.1 _ 5 rfl (by decide) rfl, ?_⟩
  exact rateLimiter_c9_underflow.2 (RateLimiter.new 1 0) 0 (by decide)

/-! ## Client, RequestBuilder and the send path, from src/src/lib.rs -/

/-- Embeds `enum Language` (default En). -/
inductive Language where
  | en
  | es
  | de
  | fr
  | zh
  deriving DecidableEq, Repr

/-- Embeds `Display for Language`. -/
def Language.code : Language → String
  | Language.en => "en"
  | Language.es => "es"
  | Language.de => "de"
  | Language.fr => "fr"
  | Language.zh => "zh"

/-- Embeds `enum Authentication` of src/src/lib.rs, which has exactly the
two variants None and Required. -/
inductive Authentication where
  | none
  | required
  deriving DecidableEq, Repr

/-- Embeds `Authentication::is_none`. -/
def Authentication.isNone : Authentication → Bool
  | Authentication.none => true
  | Authentication.required => false

/-- Embeds `struct RequestBuilder`: the uri, the authentication requirement
and the localized flag. -/
structure RequestBuilder where
  uri : String
  authentication : Authentication
  localized : Bool
  deriving DecidableEq, Repr

/-- Embeds `RequestBuilder::new`: authentication None, localized false. -/
def RequestBuilder.new (uri : String) : RequestBuilder :=
  { uri := uri, authentication := Authentication.none, localized := false }

/-- Embeds `RequestBuilder::authenticated`. -/
def RequestBuilder.authenticated (b : RequestBuilder) (v : Authentication) :
    RequestBuilder :=
  { b with authentication := v }

/-- Embeds `RequestBuilder::localized`. -/
def RequestBuilder.setLocalized (b : RequestBuilder) (v : Bool) :
    RequestBuilder :=
  { b with localized := v }

/-- Embeds `struct Client`: the access token and the preferred language.
The hyper transport handle is not part of the state we model; the request
it would be invoked with is made explicit in `SendOutcome`. -/
structure Client where
  accessToken : Option String
  language : Language
  deriving DecidableEq, Repr

/-- Embeds `Client::new`: no token, default language. -/
def Client.new : Client :=
  { accessToken := none, language := Language.en }

/-- The constant SCHEMA_VERSION of src/src/lib.rs. -/
def schemaVersion : String := "2022-03-23T19:00:00.000Z"

/-- The fixed host the uri is formatted onto in `Client::send`. -/
def baseUri : String := "https://api.guildwars2.com"

/-- The concrete HTTP request `Client::send` hands to the hyper transport:
its uri and its header list in insertion order. -/
structure HttpRequest where
  uri : String
  headers : List (String × String)
  deriving DecidableEq, Repr

/-- The error taxonomy of `enum ErrorKind`: Api carries the text of the
structured error body, Http and Json carry the foreign error values of the
hyper and serde_json collaborators (kept abstract as type parameters). -/
inductive ErrKind (H J : Type) where
  | api (text : String)
  | http (e : H)
  | json (e : J)
  | noAccessToken

/-- The `Result<T>` alias of the crate. -/
abbrev ApiResult (T H J : Type) := Except (ErrKind H J) T

/-- The observable outcome of `Client::send`: either the hyper transport is
invoked with a concrete request (`dispatched`, the `ResponseFuture::new`
path), or no network call happens at all and the future is preloaded with a
result (`immediate`, the `ResponseFuture::result` path). -/
inductive SendOutcome (T H J : Type) where
  | dispatched (req : HttpRequest)
  | immediate (res : ApiResult T H J)

/-- Embeds the body of `impl ClientExecutor for Client`, `fn send`
(src/src/lib.rs lines 383-399), parameterized by two validations of the
external http crate: `validUri` for the formatted uri and
`validHeaderValue` for the Authorization header value (the request builder
records an error for either and `req.body(Body::empty()).unwrap()` then
panics, modelled as `Option.none`). The code formats the uri, attaches the
schema version header (a constant, always a valid header value), then,
when authentication is not None, either returns the NoAccessToken future
before touching the transport (when no token is configured) or attaches
the Authorization bearer header built from the token; a request is
dispatched only when no builder error was recorded. The `localized` flag
and the client language are never consulted. -/
def Client.send {T H J : Type} (c : Client) (b : RequestBuilder)
    (validUri : String → Bool) (validHeaderValue : String → Bool) :
    Option (SendOutcome T H J) :=
  let uri := baseUri ++ b.uri
  let headers := [("X-Schema-Version", schemaVersion)]
  match b.authentication with
  | Authentication.none =>
      if validUri uri then
        some (SendOutcome.dispatched { uri := uri, headers := headers })
      else
        none
  | Authentication.required =>
      match c.accessToken with
      | none => some (SendOutcome.immediate
          (Except.error ErrKind.noAccessToken))
      | some tok =>
          let headers2 := headers ++ [("authorization", "Bearer " ++ tok)]
          if validUri uri && validHeaderValue ("Bearer " ++ tok) then
            some (SendOutcome.dispatched { uri := uri, headers := headers2 })
          else
            none

/-- Embeds `Guild::search` of src/src/v2/guild.rs: formats the searched
name into the uri and builds a plain RequestBuilder (authentication None,
not localized). -/
def guildSearch (name : String) : RequestBuilder :=
  RequestBuilder.new ("/v2/guild/search?name=" ++ name)

/-- A concrete uri validity check used for witnesses: the http crate
rejects a uri containing a space character. -/
def noSpaceUri (s : String) : Bool :=
  s.data.all (fun ch => ch != ' ')

/-! ## The ResponseFuture polling state machine, src/src/lib.rs 285-375 -/

/-- The structured error body deserialized on non-success statuses,
`struct ApiError \x7b text: String \x7d`. -/
structure ApiError where
  text : String
  deriving DecidableEq, Repr

/-- The answer an underlying future gives to one poll. -/
inductive PollR (A : Type) where
  | pending
  | ready (a : A)

/-- The answers the two underlying hyper futures would give if polled
during one call to `ResponseFuture::poll`: the header future (yielding a
status code) and the body future (yielding the body bytes); each can also
fail with a transport error. Within one poll call each underlying future
is polled at most once. -/
structure PollInput (B H : Type) where
  resp : PollR (Except H Nat)
  body : PollR (Except H B)

/-- Embeds `enum State`: Response holds the in-flight header future, Body
the in-flight body read, Result the preloaded one-shot result (an Option
because `poll` takes it out). -/
inductive FState (T H J : Type) where
  | response
  | body
  | result (res : Option (ApiResult T H J))

/-- Embeds `struct ResponseFuture`: the state and the `is_error` flag. -/
structure ResponseFuture (T H J : Type) where
  state : FState T H J
  isError : Bool

/-- Embeds `ResponseFuture::new`: fresh machine awaiting headers. -/
def ResponseFuture.new {T H J : Type} : ResponseFuture T H J :=
  { state := FState.response, isError := false }

/-- Embeds `ResponseFuture::result`: terminal machine preloaded with a
one-shot result. -/
def ResponseFuture.ofResult {T H J : Type} (r : ApiResult T H J) :
    ResponseFuture T H J :=
  { state := FState.result (some r), isError := false }

/-- The two serde_json decoders the machine calls:
`serde_json::from_slice::<T>` and `serde_json::from_slice::<ApiError>`,
kept abstract as functions on the byte type. -/
structure Codecs (T B J : Type) where
  decodeT : B → Except J T
  decodeApiError : B → Except J ApiError

/-- Embeds `StatusCode::is_success` of the http crate: 2xx statuses. -/
def statusIsSuccess (s : Nat) : Bool :=
  decide (200 ≤ s) && decide (s < 300)

/-- The shared decode branch of both body arms: when the error flag is set
the bytes go through the ApiError schema (yielding an Api error, or a Json
error if that decode fails); otherwise through T (yielding Ok, or a Json
error). -/
def decodeBuf {T B H J : Type} (cs : Codecs T B J)
    (isErr : Bool) (buf : B) : ApiResult T H J :=
  if isErr then
    match cs.decodeApiError buf with
    | Except.ok st => Except.error (ErrKind.api st.text)
    | Except.error e => Except.error (ErrKind.json e)
  else
    match cs.decodeT buf with
    | Except.ok v => Except.ok v
    | Except.error e => Except.error (ErrKind.json e)

/-- Embeds one call to `ResponseFuture::poll` (src/src/lib.rs 300-372).
Returns the machine after the call and what the call returns to its caller;
`Option.none` models the panic of `res.take().unwrap()` on a drained
Result state. In the Response arm, when the headers arrive, the error flag
is set for non-success statuses, the state moves to Body, and the body
future is opportunistically polled within the same call. -/
def pollOnce {T B H J : Type} (cs : Codecs T B J)
    (m : ResponseFuture T H J) (inp : PollInput B H) :
    Option (ResponseFuture T H J × PollR (ApiResult T H J)) :=
  match m.state with
  | FState.response =>
      match inp.resp with
      | PollR.pending => some (m, PollR.pending)
      | PollR.ready (Except.error e) =>
          some (m, PollR.ready (Except.error (ErrKind.http e)))
      | PollR.ready (Except.ok status) =>
          let isErr := if statusIsSuccess status then m.isError else true
          let m2 : ResponseFuture T H J :=
            { state := FState.body, isError := isErr }
          match inp.body with
          | PollR.pending => some (m2, PollR.pending)
          | PollR.ready (Except.error e) =>
              some (m2, PollR.ready (Except.error (ErrKind.http e)))
          | PollR.ready (Except.ok buf) =>
              some (m2, PollR.ready (decodeBuf cs isErr buf))
  | FState.body =>
      match inp.body with
      | PollR.pending => some (m, PollR.pending)
      | PollR.ready (Except.error e) =>
          some (m, PollR.ready (Except.error (ErrKind.http e)))
      | PollR.ready (Except.ok buf) =>
          some (m, PollR.ready (decodeBuf cs m.isError buf))
  | FState.result r =>
      match r with
      | some res =>
          some ({ m with state := FState.result none }, PollR.ready res)
      | none => none

/-- Drives a machine through successive polls, one PollInput per call,
until a call returns Ready. The outer Option models a panic; the inner
Option is none when the trace runs out while the machine is still
pending. This is the resolution of the future when the caller polls it to
completion. -/
def drive {T B H J : Type} (cs : Codecs T B J) :
    ResponseFuture T H J → List (PollInput B H) →
    Option (Option (ApiResult T H J))
  | _, [] => some none
  | m, inp :: rest =>
      match pollOnce cs m inp with
      | none => none
      | some (_, PollR.ready r) => some (some r)
      | some (m2, PollR.pending) => drive cs m2 rest

/-! ## Blocking executor, from src/src/blocking.rs -/

/-- The future `Client::send` hands back: a fresh polling machine when the
transport was invoked (`ResponseFuture::new(fut)`), a preloaded one when it
was not (`ResponseFuture::result(res)`). -/
def futureOf {T H J : Type} :
    SendOutcome T H J → ResponseFuture T H J
  | SendOutcome.dispatched _ => ResponseFuture.new
  | SendOutcome.immediate r => ResponseFuture.ofResult r

/-- The value the async send resolves to when its future is driven to
completion over the given poll answers. -/
def asyncResolve {T B H J : Type} (c : Client) (b : RequestBuilder)
    (validUri : String → Bool) (validHeaderValue : String → Bool)
    (cs : Codecs T B J) (trace : List (PollInput B H)) :
    Option (Option (ApiResult T H J)) :=
  match Client.send (T := T) (H := H) (J := J) c b validUri
      validHeaderValue with
  | none => none
  | some o => drive cs (futureOf o) trace

/-- Embeds `Runtime::block_on` of the dedicated current-thread runtime the
blocking client owns: the runtime repeatedly polls the future, forwarding
one PollInput per wake-up, until it returns Ready. -/
def blockOn {T B H J : Type} (cs : Codecs T B J) :
    ResponseFuture T H J → List (PollInput B H) →
    Option (Option (ApiResult T H J))
  | _, [] => some none
  | m, inp :: rest =>
      match pollOnce cs m inp with
      | none => none
      | some (_, PollR.ready r) => some (some r)
      | some (m2, PollR.pending) => blockOn cs m2 rest

/-- Embeds `blocking::Client`: the inner async client plus the dedicated
runtime (whose behavior is the `blockOn` loop). -/
structure BlockingClient where
  inner : Client

/-- Embeds `impl ClientExecutor for blocking::Client`, `fn send`:
`self.runtime.block_on(self.inner.send(builder))`. The inner send runs
first (its panic propagates), then the runtime drives the future. -/
def BlockingClient.send {T B H J : Type} (bc : BlockingClient)
    (b : RequestBuilder) (validUri : String → Bool)
    (validHeaderValue : String → Bool)
    (cs : Codecs T B J) (trace : List (PollInput B H)) :
    Option (Option (ApiResult T H J)) :=
  match Client.send (T := T) (H := H) (J := J)
      bc.inner b validUri validHeaderValue with
  | none => none
  | some o => blockOn cs (futureOf o) trace

/-! ## The multiple-ids request form -/

/-- Modelled from the spec: comma separators written before each id after
the first. This is the loop body of the multiple-ids renderer. -/
def joinIds : List Nat → String
  | [] => ""
  | i :: rest => "," ++ toString i ++ joinIds rest

/-- Modelled from the spec: the multiple-ids form of the endpoint
machinery. The `Endpoint` trait that renders id lists is referenced by the
impl blocks under src/src/v2 but its definition is not among the source
files; per the spec, a non-empty id list renders as
`?ids=<id0>,<id1>,...` (comma-joined, first id unseparated), and an empty
list is a caller contract violation (modelled as none). -/
def multiIdsQuery : List Nat → Option String
  | [] => none
  | i :: rest => some ("?ids=" ++ toString i ++ joinIds rest)

/-! ## Substring helper used to state the localization claim -/

/-- Whether `pat` occurs at the start of `s`. -/
def startsWithChars : List Char → List Char → Bool
  | [], _ => true
  | _ :: _, [] => false
  | p :: ps, c :: cs => (p == c) && startsWithChars ps cs

/-- Whether `pat` occurs anywhere inside `s`. -/
def hasSubChars (pat : List Char) : List Char → Bool
  | [] => startsWithChars pat []
  | c :: t => startsWithChars pat (c :: t) || hasSubChars pat t

/-- Whether a uri carries a lang query parameter. -/
def containsLangParam (s : String) : Bool :=
  hasSubChars "lang=".data s.data

/-! ## Theorems about the send path -/

/-- C3. When the authentication requirement of the builder is not None and
the client has no token, send resolves immediately to the NoAccessToken
error and the transport is never invoked (the outcome is `immediate`, not
`dispatched`); when a token is configured, every dispatched request carries
the Authorization header with the value Bearer followed by the token. -/
theorem send_c3_auth {T H J : Type} :
    ∀ (c : Client) (b : RequestBuilder) (v w : String → Bool),
      (b.authentication ≠ Authentication.none → c.accessToken = none →
        Client.send (T := T) (H := H) (J := J) c b v w =
          some (SendOutcome.immediate
            (Except.error ErrKind.noAccessToken))) ∧
      (∀ (tok : String) (req : HttpRequest),
        c.accessToken = some tok →
        Client.send (T := T) (H := H) (J := J) c b v w =
          some (SendOutcome.dispatched req) →
        b.authentication ≠ Authentication.none →
        ("authorization", "Bearer " ++ tok) ∈ req.headers) := by
  intro c b v w
  constructor
  · intro hauth htok
    have hreq : b.authentication = Authentication.required := by
      cases hb2 : b.authentication
      · exact absurd hb2 hauth
      · rfl
    simp [Client.send, hreq, htok]
  · intro tok req htok hsend hauth
    have hreq : b.authentication = Authentication.required := by
      cases hb2 : b.authentication
      · exact absurd hb2 hauth
      · rfl
    rw [Client.send] at hsend
    rw [hreq] at hsend
    rw [htok] at hsend
    by_cases hc : (v (baseUri ++ b.uri) &&
        w ("Bearer " ++ tok)) = true
    · simp only [hc, if_true] at hsend
      have hr :
          req = { uri := baseUri ++ b.uri,
                  headers := [("X-Schema-Version", schemaVersion)] ++
                    [("authorization", "Bearer " ++ tok)] } := by
        injection hsend with h
        injection h with h2
        exact h2.symm
      rw [hr]
      simp
    · simp only [Bool.not_eq_true] at hc
      simp [hc] at hsend

/-- Witness for C3: with no token, a required-authentication builder gets
the NoAccessToken result; with the token tok, the dispatched request for
the same builder carries the bearer header. -/
theorem send_c3_auth_w :
    Client.send (T := Nat) (H := Unit) (J := Unit)
        { accessToken := none, language := Language.en }
        ((RequestBuilder.new "/v2/tokeninfo").authenticated
          Authentication.required) (fun _ => true) (fun _ => true) =
      some (SendOutcome.immediate (Except.error ErrKind.noAccessToken)) ∧
    ("authorization", "Bearer " ++ "tok") ∈
      [("X-Schema-Version", schemaVersion),
       ("authorization", "Bearer " ++ "tok")] := by
  constructor
  · exact (send_c3_auth _ _ _ _).1 (by decide) rfl
  · exact (send_c3_auth (T := Nat) (H := Unit) (J := Unit)
      { accessToken := some "tok", language := Language.en }
      ((RequestBuilder.new "/v2/tokeninfo").authenticated
        Authentication.required) (fun _ => true) (fun _ => true)).2 "tok"
      { uri := baseUri ++ "/v2/tokeninfo",
        headers := [("X-Schema-Version", schemaVersion),
                    ("authorization", "Bearer " ++ "tok")] }
      rfl rfl (by decide)

/-- C2 counterexample. The claim says a localized request is dispatched
with a lang query parameter carrying the client language. At the concrete
input below (default client, localized builder for a worlds uri, every uri
accepted as valid) the dispatched uri is exactly the host plus the builder
uri and carries no lang parameter at all: the send path never reads the
localized flag or the language. -/
theorem send_c2_counterexample :
    Client.send (T := Nat) (H := Unit) (J := Unit) Client.new
        ((RequestBuilder.new "/v2/worlds").setLocalized true)
        (fun _ => true) (fun _ => true) =
      some (SendOutcome.dispatched
        { uri := "https://api.guildwars2.com/v2/worlds",
          headers := [("X-Schema-Version", "2022-03-23T19:00:00.000Z")] }) ∧
    containsLangParam "https://api.guildwars2.com/v2/worlds" = false := by
  constructor
  · rfl
  · decide

/-- C2 amended. `Client::send` ignores the localized flag and the
configured language: every dispatched request has exactly the fixed host
followed by the builder uri, so no lang parameter is ever appended. -/
theorem send_c2_amended {T H J : Type} :
    ∀ (c : Client) (b : RequestBuilder) (v w : String → Bool)
      (req : HttpRequest),
      Client.send (T := T) (H := H) (J := J) c b v w =
        some (SendOutcome.dispatched req) →
      req.uri = baseUri ++ b.uri := by
  intro c b v w req hsend
  rw [Client.send] at hsend
  cases hb : b.authentication with
  | none =>
      rw [hb] at hsend
      by_cases hv : v (baseUri ++ b.uri) = true
      · simp only [hv, if_true] at hsend
        injection hsend with h
        injection h with h2
        rw [← h2]
      · simp only [Bool.not_eq_true] at hv
        simp [hv] at hsend
  | required =>
      rw [hb] at hsend
      cases ht : c.accessToken with
      | none => rw [ht] at hsend; simp at hsend
      | some tok =>
          rw [ht] at hsend
          by_cases hc : (v (baseUri ++ b.uri) &&
              w ("Bearer " ++ tok)) = true
          · simp only [hc, if_true] at hsend
            injection hsend with h
            injection h with h2
            rw [← h2]
          · simp only [Bool.not_eq_true] at hc
            simp [hc] at hsend

/-- Witness for the amended C2 at the counterexample input. -/
theorem send_c2_amended_w :
    ("https://api.guildwars2.com/v2/worlds" : String) =
      baseUri ++ "/v2/worlds" :=
  send_c2_amended (T := Nat) (H := Unit) (J := Unit) Client.new
    ((RequestBuilder.new "/v2/worlds").setLocalized true) (fun _ => true)
    (fun _ => true)
    { uri := "https://api.guildwars2.com/v2/worlds",
      headers := [("X-Schema-Version", "2022-03-23T19:00:00.000Z")] }
    rfl

/-- C10 counterexample. The claim says send returns without panicking only
when the formatted uri is valid. But the NoAccessToken fast path runs
before the unwrap of the request construction: a required-authentication
builder (here the guild members uri with a guild id containing a space)
sent through a tokenless client returns the NoAccessToken result without
panicking, even though the uri validator rejects the formatted uri. -/
theorem send_c10_counterexample :
    Client.send (T := Nat) (H := Unit) (J := Unit)
        { accessToken := none, language := Language.en }
        ((RequestBuilder.new "/v2/guild/A B/members").authenticated
          Authentication.required) noSpaceUri (fun _ => true) =
      some (SendOutcome.immediate (Except.error ErrKind.noAccessToken)) ∧
    noSpaceUri (baseUri ++ "/v2/guild/A B/members") = false := by
  constructor
  · rfl
  · decide

/-- C10 amended. Send returns without panicking only when the formatted
uri is valid or the NoAccessToken fast path (authentication required, no
token configured) returns before the request construction unwrap; in
particular a Guild search whose name makes the formatted uri invalid
(such as a name containing a space) panics, since that builder requires
no authentication and the fast path cannot intervene. -/
theorem send_c10_amended {T H J : Type} :
    ∀ (c : Client) (v w : String → Bool),
      (∀ b : RequestBuilder,
        Client.send (T := T) (H := H) (J := J) c b v w ≠ none →
        (v (baseUri ++ b.uri) = true ∨
          (b.authentication = Authentication.required ∧
            c.accessToken = none))) ∧
      (∀ name : String,
        v (baseUri ++ "/v2/guild/search?name=" ++ name) = false →
        Client.send (T := T) (H := H) (J := J) c
          (guildSearch name) v w = none) := by
  intro c v w
  constructor
  · intro b hne
    cases hb : b.authentication with
    | none =>
        cases hv : v (baseUri ++ b.uri) with
        | true => exact Or.inl rfl
        | false =>
            rw [Client.send, hb] at hne
            simp [hv] at hne
    | required =>
        cases ht : c.accessToken with
        | none => exact Or.inr ⟨rfl, rfl⟩
        | some tok =>
            cases hv : v (baseUri ++ b.uri) with
            | true => exact Or.inl rfl
            | false =>
                rw [Client.send, hb, ht] at hne
                simp [hv] at hne
  · intro name hval
    have huri : (guildSearch name).uri = "/v2/guild/search?name=" ++ name :=
      rfl
    have hb : (guildSearch name).authentication = Authentication.none := rfl
    rw [Client.send, hb, huri]
    rw [String.append_assoc] at hval
    simp [hval]

/-- Witness for the amended C10: a dispatched build request under the
accept-all validators has a valid uri, and a Guild search for a name with
a space, under the validator rejecting spaces, panics. -/
theorem send_c10_amended_w :
    ((fun _ => true : String → Bool) (baseUri ++ "/v2/build") = true ∨
      ((RequestBuilder.new "/v2/build").authentication =
          Authentication.required ∧ Client.new.accessToken = none)) ∧
    Client.send (T := Nat) (H := Unit) (J := Unit) Client.new
      (guildSearch "A B") noSpaceUri (fun _ => true) = none := by
  constructor
  · exact (send_c10_amended (T := Nat) (H := Unit) (J := Unit) Client.new
      (fun _ => true) (fun _ => true)).1 (RequestBuilder.new "/v2/build")
      (fun h => Option.noConfusion h)
  · exact (send_c10_amended Client.new noSpaceUri (fun _ => true)).2 "A B"
      (by decide)

/-! ## Theorems about the multiple-ids form -/

/-- The accumulator loop of `String.intercalate` agrees with the id
joiner. -/
theorem intercalateGo_joinIds :
    ∀ (l : List Nat) (acc : String),
      String.intercalate.go acc "," (l.map toString) = acc ++ joinIds l := by
  intro l
  induction l with
  | nil => intro acc; simp [String.intercalate.go, joinIds]
  | cons j rest ih =>
      intro acc
      simp only [List.map_cons, String.intercalate.go, joinIds, ih]
      simp [String.append_assoc]

/-- C5. For every non-empty id list, the multiple-ids form renders the
query string as `?ids=` followed by the comma-intercalation of the ids in
their given order: the first id unseparated, no trailing separator, no
deduplication and no sorting (the rendered ids are exactly the map of
toString over the original list). -/
theorem multiIds_c5_render :
    ∀ (i : Nat) (rest : List Nat),
      multiIdsQuery (i :: rest) =
        some ("?ids=" ++
          String.intercalate "," ((i :: rest).map toString)) := by
  intro i rest
  simp only [multiIdsQuery, List.map_cons, String.intercalate]
  rw [intercalateGo_joinIds rest (toString i)]
  rw [String.append_assoc]

/-! ## Theorems about the polling state machine -/

/-- The forward order on machine states: Response before Body before the
terminal Result. -/
def stateRank {T H J : Type} : FState T H J → Nat
  | FState.response => 0
  | FState.body => 1
  | FState.result _ => 2

/-- C7. Every poll moves the machine only forward: the state rank never
drops, from Response the machine can only stay or advance to Body (never
skip to Result), from Body it stays in Body, and the error flag once set
survives every later poll. -/
theorem pollOnce_c7_forward {T B H J : Type} :
    ∀ (cs : Codecs T B J) (m : ResponseFuture T H J)
      (inp : PollInput B H) (m2 : ResponseFuture T H J)
      (out : PollR (ApiResult T H J)),
      pollOnce cs m inp = some (m2, out) →
      (stateRank m.state ≤ stateRank m2.state ∧
        (m.state = FState.response →
          (m2.state = FState.response ∨ m2.state = FState.body)) ∧
        (m.state = FState.body → m2.state = FState.body) ∧
        (m.isError = true → m2.isError = true)) := by
  intro cs m inp m2 out h
  cases hm : m.state with
  | response =>
      rw [pollOnce, hm] at h
      cases hr : inp.resp with
      | pending =>
          rw [hr] at h
          simp only [Option.some.injEq, Prod.mk.injEq] at h
          obtain ⟨hm2, -⟩ := h
          subst hm2
          simp [hm]
      | ready r =>
          cases r with
          | error e =>
              rw [hr] at h
              simp only [Option.some.injEq, Prod.mk.injEq] at h
              obtain ⟨hm2, -⟩ := h
              subst hm2
              simp [hm]
          | ok status =>
              rw [hr] at h
              cases hb : inp.body with
              | pending =>
                  rw [hb] at h
                  simp only [Option.some.injEq, Prod.mk.injEq] at h
                  obtain ⟨hm2, -⟩ := h
                  subst hm2
                  refine ⟨by simp [hm, stateRank], fun _ => Or.inr rfl,
                    by simp [hm], ?_⟩
                  intro hie
                  cases hs : statusIsSuccess status <;> simp [hs, hie]
              | ready rb =>
                  cases rb with
                  | error e =>
                      rw [hb] at h
                      simp only [Option.some.injEq, Prod.mk.injEq] at h
                      obtain ⟨hm2, -⟩ := h
                      subst hm2
                      refine ⟨by simp [hm, stateRank], fun _ => Or.inr rfl,
                        by simp [hm], ?_⟩
                      intro hie
                      cases hs : statusIsSuccess status <;> simp [hs, hie]
                  | ok buf =>
                      rw [hb] at h
                      simp only [Option.some.injEq, Prod.mk.injEq] at h
                      obtain ⟨hm2, -⟩ := h
                      subst hm2
                      refine ⟨by simp [hm, stateRank], fun _ => Or.inr rfl,
                        by simp [hm], ?_⟩
                      intro hie
                      cases hs : statusIsSuccess status <;> simp [hs, hie]
  | body =>
      rw [pollOnce, hm] at h
      cases hb : inp.body with
      | pending =>
          rw [hb] at h
          simp only [Option.some.injEq, Prod.mk.injEq] at h
          obtain ⟨hm2, -⟩ := h
          subst hm2
          simp [hm]
      | ready rb =>
          cases rb with
          | error e =>
              rw [hb] at h
              simp only [Option.some.injEq, Prod.mk.injEq] at h
              obtain ⟨hm2, -⟩ := h
              subst hm2
              simp [hm]
          | ok buf =>
              rw [hb] at h
              simp only [Option.some.injEq, Prod.mk.injEq] at h
              obtain ⟨hm2, -⟩ := h
              subst hm2
              simp [hm]
  | result r =>
      rw [pollOnce, hm] at h
      cases r with
      | none => simp at h
      | some res =>
          simp only [Option.some.injEq, Prod.mk.injEq] at h
          obtain ⟨hm2, -⟩ := h
          subst hm2
          simp [hm, stateRank]

/-- A concrete codec pair used by the witnesses: bytes are strings, the
success schema decodes the byte string 1 to the number 1, the error schema
decodes the byte string err to the message oops. -/
def sampleCodecs : Codecs Nat String Unit :=
  { decodeT := fun b => if b = "1" then Except.ok 1 else Except.error (),
    decodeApiError := fun b =>
      if b = "err" then Except.ok { text := "oops" } else Except.error () }

/-- Witness for C7: polling the fresh machine with a 404 header answer
moves it to Body with the error flag set, and the instantiated conclusions
hold. -/
theorem pollOnce_c7_forward_w :
    pollOnce sampleCodecs (ResponseFuture.new (T := Nat) (H := Unit)
        (J := Unit))
        { resp := PollR.ready (Except.ok 404), body := PollR.pending } =
      some ({ state := FState.body, isError := true }, PollR.pending) ∧
    stateRank (ResponseFuture.new (T := Nat) (H := Unit)
        (J := Unit)).state ≤
      stateRank (FState.body : FState Nat Unit Unit) := by
  constructor
  · rfl
  · exact (pollOnce_c7_forward sampleCodecs ResponseFuture.new
      { resp := PollR.ready (Except.ok 404), body := PollR.pending }
      { state := FState.body, isError := true } PollR.pending rfl).1

/-- C8. A machine in the Result state yields its stored one-shot value on
the first poll, leaving an emptied slot behind, and any further poll of the
emptied slot panics (the unwrap of the taken Option). -/
theorem pollOnce_c8_result_once {T B H J : Type} :
    ∀ (cs : Codecs T B J) (e : Bool) (r : ApiResult T H J)
      (inp inp2 : PollInput B H),
      pollOnce cs { state := FState.result (some r), isError := e } inp =
        some ({ state := FState.result none, isError := e },
              PollR.ready r) ∧
      pollOnce cs { state := FState.result none, isError := e } inp2 =
        none := by
  intro cs e r inp inp2
  exact ⟨rfl, rfl⟩

/-- An input whose underlying futures are both still pending. -/
def pendInput {B H : Type} : PollInput B H :=
  { resp := PollR.pending, body := PollR.pending }

/-- The poll answers of one exchange: the headers arrive on the first
poll with the given status while the body is still pending, the next n
polls stay pending, and the body bytes arrive on the last poll. -/
def c4Trace {B H : Type} (status : Nat) (n : Nat) (buf : B) :
    List (PollInput B H) :=
  { resp := PollR.ready (Except.ok status), body := PollR.pending } ::
    (List.replicate n pendInput ++
      [{ resp := PollR.pending, body := PollR.ready (Except.ok buf) }])

/-- Driving a machine that sits in the Body state through pending polls
and then a ready body yields the decode of the bytes under its error
flag. -/
theorem drive_body_ready {T B H J : Type}
    (cs : Codecs T B J) (e : Bool) (buf : B) :
    ∀ n : Nat,
      drive cs ({ state := FState.body, isError := e } :
          ResponseFuture T H J)
        (List.replicate n pendInput ++
          [{ resp := PollR.pending, body := PollR.ready (Except.ok buf) }]) =
      some (some (decodeBuf cs e buf)) := by
  intro n
  induction n with
  | zero => simp [drive, pollOnce]
  | succ k ih =>
      rw [List.replicate_succ, List.cons_append, drive]
      simpa [pollOnce, pendInput] using ih

/-- C4. Feeding the fresh machine a header answer and then body bytes:
with a success status, the bytes are decoded through the success schema
and the future resolves to Ok of the decoded value, or to a Json error
when that decode fails; with a non-success status, the error flag set
while awaiting headers survives into the body decode, the bytes are
decoded through the ApiError schema, and the future resolves to the Api
error carrying its text when that decode succeeds and to a Json error
when it fails — never through the success schema. -/
theorem responseFuture_c4_decode {T B H J : Type} :
    ∀ (cs : Codecs T B J) (status n : Nat) (buf : B),
      (statusIsSuccess status = true → ∀ v : T,
        cs.decodeT buf = Except.ok v →
        drive cs (ResponseFuture.new (T := T) (H := H) (J := J))
            (c4Trace status n buf) = some (some (Except.ok v))) ∧
      (statusIsSuccess status = true → ∀ je : J,
        cs.decodeT buf = Except.error je →
        drive cs (ResponseFuture.new (T := T) (H := H) (J := J))
            (c4Trace status n buf) =
          some (some (Except.error (ErrKind.json je)))) ∧
      (statusIsSuccess status = false → ∀ txt : String,
        cs.decodeApiError buf = Except.ok { text := txt } →
        drive cs (ResponseFuture.new (T := T) (H := H) (J := J))
            (c4Trace status n buf) =
          some (some (Except.error (ErrKind.api txt)))) ∧
      (statusIsSuccess status = false → ∀ je : J,
        cs.decodeApiError buf = Except.error je →
        drive cs (ResponseFuture.new (T := T) (H := H) (J := J))
            (c4Trace status n buf) =
          some (some (Except.error (ErrKind.json je)))) := by
  intro cs status n buf
  have hstep : ∀ e2 : Bool,
      (if statusIsSuccess status then false else true) = e2 →
      drive cs (ResponseFuture.new (T := T) (H := H) (J := J))
          (c4Trace status n buf) = some (some (decodeBuf cs e2 buf)) := by
    intro e2 he2
    rw [c4Trace, drive]
    simp only [pollOnce, ResponseFuture.new, he2]
    exact drive_body_ready cs e2 buf n
  refine ⟨?_, ?_, ?_, ?_⟩
  · intro hs v hv
    rw [hstep false (by simp [hs])]
    simp [decodeBuf, hv]
  · intro hs je hv
    rw [hstep false (by simp [hs])]
    simp [decodeBuf, hv]
  · intro hs txt hv
    rw [hstep true (by simp [hs])]
    simp [decodeBuf, hv]
  · intro hs je hv
    rw [hstep true (by simp [hs])]
    simp [decodeBuf, hv]

/-- Witness for C4 with the sample codecs: a 200 header and the body 1
resolve to Ok 1; a 200 header and a body that fails the success decode
resolve to a Json error; a 404 header and the body err resolve to the Api
error oops; a 500 header and an undecodable body resolve to a Json
error. -/
theorem responseFuture_c4_decode_w :
    drive (H := Unit) sampleCodecs ResponseFuture.new
        (c4Trace 200 0 "1") =
      some (some (Except.ok 1)) ∧
    drive (H := Unit) sampleCodecs ResponseFuture.new
        (c4Trace 200 0 "garbled") =
      some (some (Except.error (ErrKind.json ()))) ∧
    drive (H := Unit) sampleCodecs ResponseFuture.new
        (c4Trace 404 0 "err") =
      some (some (Except.error (ErrKind.api "oops"))) ∧
    drive (H := Unit) sampleCodecs ResponseFuture.new
        (c4Trace 500 0 "bogus") =
      some (some (Except.error (ErrKind.json ()))) := by
  refine ⟨?_, ?_, ?_, ?_⟩
  · exact (responseFuture_c4_decode sampleCodecs 200 0 "1").1
      (by decide) 1 rfl
  · exact (responseFuture_c4_decode sampleCodecs 200 0 "garbled").2.1
      (by decide) () rfl
  · exact (responseFuture_c4_decode sampleCodecs 404 0 "err").2.2.1
      (by decide) "oops" rfl
  · exact (responseFuture_c4_decode sampleCodecs 500 0 "bogus").2.2.2
      (by decide) () rfl

/-! ## Theorems about the blocking executor -/

/-- The blocking runtime loop computes exactly the resolution of the
future under the same poll answers. -/
theorem blockOn_eq_drive {T B H J : Type}
    (cs : Codecs T B J) :
    ∀ (trace : List (PollInput B H))
      (m : ResponseFuture T H J),
      blockOn cs m trace = drive cs m trace := by
  intro trace
  induction trace with
  | nil => intro m; rfl
  | cons inp rest ih =>
      intro m
      rw [blockOn, drive]
      cases h : pollOnce cs m inp with
      | none => rfl
      | some p =>
          cases p with
          | mk m2 out =>
              cases out with
              | pending => exact ih m2
              | ready r => rfl

/-- C6. The blocking send returns exactly what the async send resolves to
when its future is driven to completion: for every client, builder, pair
of validators, codec pair and poll trace, the two executors agree on the
whole outcome, Ok and Err alike (including the panic and the
still-pending cases). -/
theorem blocking_c6_agree {T B H J : Type} :
    ∀ (bc : BlockingClient) (b : RequestBuilder) (v w : String → Bool)
      (cs : Codecs T B J) (trace : List (PollInput B H)),
      BlockingClient.send bc b v w cs trace =
        asyncResolve bc.inner b v w cs trace := by
  intro bc b v w cs trace
  rw [BlockingClient.send, asyncResolve]
  cases h : Client.send (T := T) (H := H) (J := J)
      bc.inner b v w with
  | none => rfl
  | some o => exact blockOn_eq_drive cs trace (futureOf o)

end Gw2
